import Mathlib

/-!
Shallow embedding of the `ardanlabs/graphql` Go client (file `graphql.go`).

The client builds a JSON envelope `\x7b"query", "variables"\x7d`, POSTs it to
`baseURL ++ endpoint`, captures the outbound bytes, reads the response body,
and unifies transport, status, decode and application-level GraphQL errors
into a single returned error.

Modelling conventions:
* Byte streams are `String`s.
* The HTTP transport (`client.Do`) together with the subsequent
  `ioutil.ReadAll` is an explicit `DoOutcome` parameter: the transport is an
  external collaborator supplied by the caller.
* `json.Unmarshal` is likewise external (spec: JSON primitives are library
  collaborators); it is a function parameter from the response bytes and the
  current destination value to either a decode failure (possibly leaving a
  partially written destination) or a new destination value plus the decoded
  `errors` sequence.
* The log sink is modelled by a `Bool` presence flag on the client, and the
  result records the list of strings the sink was invoked with.
* `http.Header.Set` and Go map writes are modelled on association lists with
  replace semantics; MIME canonicalization of header names is not modelled
  (all claims use exact header names).
-/

set_option autoImplicit false

/-- JSON values, for variable bindings (Go `interface\x7b\x7d` values that are
JSON-serializable). Numbers are integers; fractional numbers play no role in
any claim. -/
inductive Json where
  | null
  | str (s : String)
  | num (n : Int)
  | bool (b : Bool)
  | obj (fields : List (String × Json))
  | arr (elems : List Json)
deriving Repr, BEq

/-- A Go `map[string]T` as an association list with unique keys: a write
removes any existing entry for the key and appends the new pair. -/
def mapSet {α : Type} (m : List (String × α)) (key : String) (value : α) : List (String × α) :=
  m.filter (fun p => p.1 ≠ key) ++ [(key, value)]

/-- One entry of the decoded `errors` array: `struct \x7b Message string \x7d`. -/
structure ErrEntry where
  message : String
deriving Repr, DecidableEq

/-- Outcome of `json.Unmarshal(data, &result)` where `result.Data` points at
the caller's destination: either a decode failure (the destination may have
been partially written before the failure) or the new destination value and
the decoded `errors` sequence. -/
inductive UnmarshalOut (D : Type) where
  | fail (errMsg : String) (dest : D)
  | ok (dest : D) (errors : List ErrEntry)

/-- Combined outcome of `g.client.Do(req)` and `ioutil.ReadAll(resp.Body)`:
either a transport failure, or a response carrying the HTTP status code, the
status text, and the result of reading the body (which can itself fail). -/
inductive DoOutcome where
  | doError (msg : String)
  | resp (statusCode : Nat) (status : String) (bodyRead : Except String String)

/-- The `GraphQL` client struct. The `client` field (HTTP transport) is the
`DoOutcome` parameter of `RawRequest`; the log sink is modelled by presence. -/
structure GraphQL where
  url : String
  headers : List (String × String)
  logFunc : Bool
deriving Repr, DecidableEq

/-- Go `strings.TrimRight(url, "/")`: remove every trailing slash. -/
def trimRightSlash (url : String) : String :=
  String.mk ((url.data.reverse.dropWhile (fun c => c = '/')).reverse)

/-- Constructor `New`: normalize the base URL to end in exactly one slash, start with an
empty header map and no log sink, then apply the functional options in order. -/
def New (url : String) (options : List (GraphQL → GraphQL)) : GraphQL :=
  options.foldl (fun gql option => option gql)
    { url := trimRightSlash url ++ "/", headers := [], logFunc := false }

/-- Option `WithLogging`: install the log sink (modelled by presence). -/
def WithLogging : GraphQL → GraphQL :=
  fun gql => { gql with logFunc := true }

/-- Option `WithHeader`: add a key value pair to the header map, a no-op when the
key is empty. -/
def WithHeader (key : String) (value : String) : GraphQL → GraphQL :=
  fun gql =>
    if key ≠ "" then { gql with headers := mapSet gql.headers key value } else gql

/-- A variables map under construction: Go `map[string]interface\x7b\x7d`. -/
def VarMap : Type := List (String × Json)

/-- Helper `WithVariable`: a mutator writing one key value pair into the map. -/
def WithVariable (key : String) (value : Json) : VarMap → VarMap :=
  fun m => mapSet m key value

/-- Two-digit lowercase hex rendering of a byte, as `encoding/json` uses in
`\u00xx` escapes. -/
def hexByte (n : Nat) : String :=
  let digit : Nat → Char := fun d => if d < 10 then Char.ofNat (48 + d) else Char.ofNat (87 + d)
  String.mk [digit (n / 16 % 16), digit (n % 16)]

/-- Escaping of one character by Go `encoding/json` with HTML escaping on
(the `json.Encoder` default): quote, backslash, newline, carriage return and
tab get short escapes, other control characters get a u00xx escape, the HTML
characters and the separators U+2028 and U+2029 get uXXXX escapes. -/
def escapeChar (c : Char) : String :=
  if c = '"' then "\\\""
  else if c = '\\' then "\\\\"
  else if c = '\n' then "\\n"
  else if c = '\r' then "\\r"
  else if c = '\t' then "\\t"
  else if c = '<' then "\\u003c"
  else if c = '>' then "\\u003e"
  else if c = '&' then "\\u0026"
  else if c.toNat < 32 then "\\u00" ++ hexByte c.toNat
  else if c.toNat = 8232 then "\\u2028"
  else if c.toNat = 8233 then "\\u2029"
  else String.mk [c]

/-- Go JSON rendering of a string literal. -/
def renderString (s : String) : String :=
  "\"" ++ String.join (s.data.map escapeChar) ++ "\""

mutual

/-- Go `json.Marshal` rendering of a JSON value (object fields rendered in
the order of the list; `encoding/json` sorts map keys before this point). -/
def Json.render : Json → String
  | Json.null => "null"
  | Json.str s => renderString s
  | Json.num n => toString n
  | Json.bool b => cond b "true" "false"
  | Json.obj fields => "\x7b" ++ renderFields fields ++ "\x7d"
  | Json.arr elems => "[" ++ renderElems elems ++ "]"

/-- Comma-separated rendering of object fields. -/
def renderFields : List (String × Json) → String
  | [] => ""
  | [f] => renderString f.1 ++ ":" ++ Json.render f.2
  | f :: g :: rest => renderString f.1 ++ ":" ++ Json.render f.2 ++ "," ++ renderFields (g :: rest)

/-- Comma-separated rendering of array elements. -/
def renderElems : List Json → String
  | [] => ""
  | [e] => Json.render e
  | e :: f :: rest => Json.render e ++ "," ++ renderElems (f :: rest)

end

/-- Package `encoding/json` marshals a Go map with its keys in sorted order. -/
def sortFields (m : List (String × Json)) : List (String × Json) :=
  List.insertionSort (fun a b => a.1 ≤ b.1) m

/-- The `variables` field of the envelope: a `nil` Go map marshals as `null`,
a non-nil map as an object with sorted keys. -/
def variablesJson : Option VarMap → Json
  | none => Json.null
  | some m => Json.obj (sortFields m)

/-- Result of `json.Marshal` on the anonymous request struct
`\x7b Query string; Variables map[string]interface\x7b\x7d \x7d` with tags
`query` and `variables` (struct fields render in declaration order). -/
def marshalRequest (queryString : String) (queryVars : Option VarMap) : String :=
  "\x7b\"query\":" ++ renderString queryString ++ ",\"variables\":"
    ++ (variablesJson queryVars).render ++ "\x7d"

/-- The header map of the outbound request: the three fixed headers are set
first (`http.Header.Set` replaces, which on an association list is exactly
`mapSet`), then every configured custom header is overlaid. -/
def applyHeaders (gql : GraphQL) : List (String × String) :=
  gql.headers.foldl (fun h p => mapSet h p.1 p.2)
    (mapSet (mapSet (mapSet [] "Cache-Control" "no-cache")
      "Content-Type" "application/json") "Accept" "application/json")

/-- The outbound HTTP POST request as built by `RawRequest`: target URL,
header map, and the body bytes (the captured request snapshot). -/
structure OutboundRequest where
  url : String
  headers : List (String × String)
  body : String
deriving Repr, DecidableEq

/-- Observable result of one `RawRequest` call: the returned error (`none`
on success), the final destination value, the strings passed to the log
sink, and the request that was built. -/
structure RawResult (D : Type) where
  err : Option String
  dest : D
  logs : List String
  sent : OutboundRequest

/-- Method `RawRequest`, translated line by line from `graphql.go`: capture
the request bytes (TeeReader), build the POST with fixed plus custom
headers, run the transport, read the body, reject non-200 statuses, log on
the 200 path, unmarshal into the destination plus the `errors` array, and
surface the first error entry if any. Request construction
(`http.NewRequestWithContext`) cannot fail for the URLs built here and is
not modelled as fallible. -/
def GraphQL.RawRequest {D : Type} (g : GraphQL) (endpoint : String)
    (r : String) (world : DoOutcome)
    (unmarshal : String → D → UnmarshalOut D) (response : D) : RawResult D :=
  let request := r
  let req : OutboundRequest :=
    { url := g.url ++ endpoint, headers := applyHeaders g, body := r }
  match world with
  | DoOutcome.doError msg =>
      { err := some ("graphql request error: " ++ msg),
        dest := response, logs := [], sent := req }
  | DoOutcome.resp statusCode status bodyRead =>
      match bodyRead with
      | Except.error msg =>
          { err := some ("graphql copy error: " ++ msg),
            dest := response, logs := [], sent := req }
      | Except.ok data =>
          if statusCode ≠ 200 then
            { err := some ("graphql op error: status code: " ++ status),
              dest := response, logs := [], sent := req }
          else
            let logs :=
              if g.logFunc then
                ["request:[" ++ request ++ "] data:[" ++ data ++ "]"]
              else []
            match unmarshal data response with
            | UnmarshalOut.fail emsg dest2 =>
                { err := some ("graphql decoding error: " ++ emsg
                    ++ " response: " ++ data),
                  dest := dest2, logs := logs, sent := req }
            | UnmarshalOut.ok dest2 errors =>
                match errors with
                | [] => { err := none, dest := dest2, logs := logs, sent := req }
                | e :: _ =>
                    { err := some ("graphql op error: request:[" ++ request
                        ++ "] error:[" ++ e.message ++ "]"),
                      dest := dest2, logs := logs, sent := req }

/-- Method `query`: serialize the envelope with a streaming encoder (which
appends one newline after the value) and delegate to `RawRequest`. Encoding
a string plus a map of JSON-representable values cannot fail. -/
def GraphQL.query {D : Type} (g : GraphQL) (endpoint : String)
    (queryString : String) (queryVars : Option VarMap) (world : DoOutcome)
    (unmarshal : String → D → UnmarshalOut D) (response : D) : RawResult D :=
  g.RawRequest endpoint (marshalRequest queryString queryVars ++ "\n")
    world unmarshal response

/-- Method `Execute`: build the variables map from the mutators (an empty
map only when at least one mutator is supplied) and query the `graphql`
endpoint. -/
def GraphQL.Execute {D : Type} (g : GraphQL) (queryString : String)
    (world : DoOutcome) (unmarshal : String → D → UnmarshalOut D)
    (response : D) (mutators : List (VarMap → VarMap)) : RawResult D :=
  let queryVars : Option VarMap :=
    if mutators.length > 0 then
      some (mutators.foldl (fun m mutator => mutator m) [])
    else none
  g.query "graphql" queryString queryVars world unmarshal response

/-- Method `ExecuteOnEndpoint`: same as `Execute` but against a named
endpoint. -/
def GraphQL.ExecuteOnEndpoint {D : Type} (g : GraphQL) (endpoint : String)
    (queryString : String) (world : DoOutcome)
    (unmarshal : String → D → UnmarshalOut D) (response : D)
    (mutators : List (VarMap → VarMap)) : RawResult D :=
  let queryVars : Option VarMap :=
    if mutators.length > 0 then
      some (mutators.foldl (fun m mutator => mutator m) [])
    else none
  g.query endpoint queryString queryVars world unmarshal response

/-! ### Association-list lemmas for `mapSet` and header application -/

theorem lookup_filter_self {α : Type} (m : List (String × α)) (k : String) :
    List.lookup k (m.filter fun p => p.1 ≠ k) = none := by
  rw [List.lookup_eq_none_iff]
  intro p hp
  have h := (List.mem_filter.mp hp).2
  simp only [decide_eq_true_eq] at h
  simpa [bne_iff_ne] using fun e => h e.symm

theorem lookup_filter_ne {α : Type} (m : List (String × α)) (k k' : String)
    (h : k' ≠ k) :
    List.lookup k' (m.filter fun p => p.1 ≠ k) = List.lookup k' m := by
  induction m with
  | nil => rfl
  | cons p t ih =>
    obtain ⟨a, b⟩ := p
    rw [List.filter_cons]
    simp only [decide_eq_true_eq]
    by_cases ha : a = k
    · rw [if_neg (fun hne => hne ha), ih, List.lookup_cons,
        beq_eq_false_iff_ne.mpr (fun e => h (e.trans ha))]
    · rw [if_pos ha]
      by_cases hc : k' = a
      · subst hc
        rw [List.lookup_cons, List.lookup_cons, beq_self_eq_true]
      · rw [List.lookup_cons, List.lookup_cons, beq_eq_false_iff_ne.mpr hc, ih]

theorem lookup_mapSet_self {α : Type} (m : List (String × α)) (k : String) (v : α) :
    List.lookup k (mapSet m k v) = some v := by
  rw [mapSet, List.lookup_append, lookup_filter_self]
  simp [List.lookup_cons]

theorem lookup_mapSet_ne {α : Type} (m : List (String × α)) (k k' : String) (v : α)
    (h : k' ≠ k) :
    List.lookup k' (mapSet m k v) = List.lookup k' m := by
  have hk : (k' == k) = false := beq_eq_false_iff_ne.mpr h
  rw [mapSet, List.lookup_append, lookup_filter_ne _ _ _ h]
  simp [List.lookup_cons, hk]

theorem lookup_foldl_mapSet_not_mem {α : Type} (m : List (String × α))
    (h0 : List (String × α)) (k : String) (hk : k ∉ m.map Prod.fst) :
    List.lookup k (m.foldl (fun h p => mapSet h p.1 p.2) h0) = List.lookup k h0 := by
  induction m generalizing h0 with
  | nil => rfl
  | cons p t ih =>
    simp only [List.map_cons, List.mem_cons] at hk
    push_neg at hk
    rw [List.foldl_cons, ih _ hk.2, lookup_mapSet_ne _ _ _ _ hk.1]

/-! ### Lemmas about base-URL normalization -/

theorem head?_dropWhile_slash (l : List Char) :
    (l.dropWhile fun c => c = '/').head? ≠ some '/' := by
  induction l with
  | nil => simp [List.dropWhile]
  | cons c t ih =>
    rw [List.dropWhile_cons]
    simp only [decide_eq_true_eq]
    by_cases h : c = '/'
    · rw [if_pos h]
      exact ih
    · rw [if_neg h]
      simpa using fun e => h e

theorem dropWhile_slash_replicate (n : Nat) (l : List Char) :
    List.dropWhile (fun c => c = '/') (List.replicate n '/' ++ l)
      = List.dropWhile (fun c => c = '/') l := by
  induction n with
  | zero => simp
  | succ m ih =>
    rw [List.replicate_succ, List.cons_append, List.dropWhile_cons]
    simp only [decide_eq_true_eq, if_pos rfl]
    exact ih

theorem trimRightSlash_append_slashes (url : String) (n : Nat) :
    trimRightSlash (url ++ String.mk (List.replicate n '/')) = trimRightSlash url := by
  unfold trimRightSlash
  rw [String.data_append]
  show String.mk ((List.dropWhile _ ((url.data ++ List.replicate n '/').reverse)).reverse) = _
  rw [List.reverse_append, List.reverse_replicate, dropWhile_slash_replicate]

theorem getLast?_trimRightSlash (url : String) :
    (trimRightSlash url).data.getLast? ≠ some '/' := by
  unfold trimRightSlash
  show ((List.dropWhile _ url.data.reverse).reverse).getLast? ≠ some '/'
  rw [List.getLast?_reverse]
  exact head?_dropWhile_slash _

/-! ### The request built by `RawRequest` is the same on every path -/

theorem RawRequest_sent {D : Type} (g : GraphQL) (endpoint r : String)
    (world : DoOutcome) (unmarshal : String → D → UnmarshalOut D) (response : D) :
    (g.RawRequest endpoint r world unmarshal response).sent
      = { url := g.url ++ endpoint, headers := applyHeaders g, body := r } := by
  unfold GraphQL.RawRequest
  repeat' split
  all_goals rfl

/-! ### Claim theorems -/

/-- C1: for every 200-status response whose decoded `errors` sequence is
non-empty, `RawRequest` returns exactly the composed error built from the
captured request snapshot and the message of the first error only (the
returned message is this exact string, so messages of later errors do not
appear), and `Execute` (identical to `ExecuteOnEndpoint` on the `graphql`
endpoint) returns the same composed error with its serialized envelope as
the snapshot. -/
theorem C1_first_error_only {D : Type} (g : GraphQL)
    (endpoint r status data qs : String) (u : String → D → UnmarshalOut D)
    (d d₂ : D) (e : ErrEntry) (rest : List ErrEntry)
    (muts : List (VarMap → VarMap))
    (h : u data d = UnmarshalOut.ok d₂ (e :: rest)) :
    (g.RawRequest endpoint r (DoOutcome.resp 200 status (Except.ok data)) u d).err
      = some ("graphql op error: request:[" ++ r ++ "] error:[" ++ e.message ++ "]")
    ∧ (g.Execute qs (DoOutcome.resp 200 status (Except.ok data)) u d muts).err
      = some ("graphql op error: request:["
          ++ (marshalRequest qs (if muts.length > 0 then
                some (muts.foldl (fun m mutator => mutator m) []) else none) ++ "\n")
          ++ "] error:[" ++ e.message ++ "]") := by
  constructor
  · unfold GraphQL.RawRequest
    simp [h]
  · unfold GraphQL.Execute GraphQL.query GraphQL.RawRequest
    simp [h]

/-- Witness for C1: a response carrying errors `boom` then `later` yields
exactly the composed error naming `boom`. -/
theorem C1_first_error_only_witness :
    (GraphQL.RawRequest { url := "http://host/", headers := [], logFunc := false }
        "graphql" "B" (DoOutcome.resp 200 "200 OK" (Except.ok "E"))
        (fun _ d => UnmarshalOut.ok d [⟨"boom"⟩, ⟨"later"⟩]) ()).err
      = some ("graphql op error: request:[" ++ "B" ++ "] error:[" ++ "boom" ++ "]") :=
  (C1_first_error_only { url := "http://host/", headers := [], logFunc := false }
    "graphql" "B" "200 OK" "E" "q" (fun _ d => UnmarshalOut.ok d [⟨"boom"⟩, ⟨"later"⟩])
    () () ⟨"boom"⟩ [⟨"later"⟩] [] rfl).1

/-- C4: every response with a non-200 status makes `RawRequest` return the
error naming the status text, whatever the read body was; the log sink is
not invoked, the destination is untouched, and the whole result is the same
for every unmarshal function (no decoding is attempted). -/
theorem C4_non_200_status {D : Type} (g : GraphQL)
    (endpoint r status content : String) (code : Nat)
    (u u' : String → D → UnmarshalOut D) (d : D) (h : code ≠ 200) :
    (g.RawRequest endpoint r (DoOutcome.resp code status (Except.ok content)) u d)
      = { err := some ("graphql op error: status code: " ++ status),
          dest := d, logs := [],
          sent := { url := g.url ++ endpoint, headers := applyHeaders g, body := r } }
    ∧ (g.RawRequest endpoint r (DoOutcome.resp code status (Except.ok content)) u d)
      = (g.RawRequest endpoint r (DoOutcome.resp code status (Except.ok content)) u' d) := by
  constructor
  · unfold GraphQL.RawRequest
    simp [h]
  · unfold GraphQL.RawRequest
    simp [h]

/-- Witness for C4: a 500 response with body `oops` yields the status error
and an empty log, independently of the decoder. -/
theorem C4_non_200_status_witness :
    (GraphQL.RawRequest { url := "http://host/", headers := [], logFunc := true }
        "graphql" "B" (DoOutcome.resp 500 "500 Internal Server Error" (Except.ok "oops"))
        (fun _ d => UnmarshalOut.ok d [⟨"boom"⟩]) ())
      = { err := some ("graphql op error: status code: " ++ "500 Internal Server Error"),
          dest := (), logs := [],
          sent := { url := "http://host/" ++ "graphql",
                    headers := applyHeaders { url := "http://host/", headers := [], logFunc := true },
                    body := "B" } } :=
  (C4_non_200_status { url := "http://host/", headers := [], logFunc := true }
    "graphql" "B" "500 Internal Server Error" "oops" 500
    (fun _ d => UnmarshalOut.ok d [⟨"boom"⟩]) (fun _ d => UnmarshalOut.ok d []) ()
    (by decide)).1

/-- C5: the destination is untouched on the transport, read and status
error paths; on success (`errors` empty) it is exactly the value the decode
step produced, and the returned error is `none`; and there is an execution
ending in an application-level error in which the destination was already
rewritten by the decode step, so on error paths its contents are indeed
unspecified and must not be relied upon. -/
theorem C5_dest_mutated_only_on_success {D : Type} (g : GraphQL)
    (endpoint r : String) (u : String → D → UnmarshalOut D) (d : D) :
    (∀ msg, (g.RawRequest endpoint r (DoOutcome.doError msg) u d).dest = d)
    ∧ (∀ code status msg,
        (g.RawRequest endpoint r (DoOutcome.resp code status (Except.error msg)) u d).dest = d)
    ∧ (∀ code status content, code ≠ 200 →
        (g.RawRequest endpoint r (DoOutcome.resp code status (Except.ok content)) u d).dest = d)
    ∧ (∀ status content d₂, u content d = UnmarshalOut.ok d₂ [] →
        (g.RawRequest endpoint r (DoOutcome.resp 200 status (Except.ok content)) u d).err = none
        ∧ (g.RawRequest endpoint r (DoOutcome.resp 200 status (Except.ok content)) u d).dest = d₂)
    ∧ ((GraphQL.RawRequest { url := "http://host/", headers := [], logFunc := false }
          "graphql" "B" (DoOutcome.resp 200 "200 OK" (Except.ok "E"))
          (fun _ _ => UnmarshalOut.ok 1 [{ message := "boom" }]) (0 : Nat)).err ≠ none
        ∧ (GraphQL.RawRequest { url := "http://host/", headers := [], logFunc := false }
          "graphql" "B" (DoOutcome.resp 200 "200 OK" (Except.ok "E"))
          (fun _ _ => UnmarshalOut.ok 1 [{ message := "boom" }]) (0 : Nat)).dest ≠ 0) := by
  refine ⟨fun msg => rfl, fun code status msg => rfl, ?_, ?_, by decide, by decide⟩
  · intro code status content h
    unfold GraphQL.RawRequest
    simp [h]
  · intro status content d₂ h
    unfold GraphQL.RawRequest
    simp [h]

/-- Witness for C5: a 404 leaves the destination `7` unchanged, and a clean
200 decode populates it with the decoded value `9`. -/
theorem C5_dest_mutated_only_on_success_witness :
    (GraphQL.RawRequest { url := "http://host/", headers := [], logFunc := false }
        "graphql" "B" (DoOutcome.resp 404 "404 Not Found" (Except.ok "E"))
        (fun _ _ => UnmarshalOut.ok 9 []) (7 : Nat)).dest = 7
    ∧ (GraphQL.RawRequest { url := "http://host/", headers := [], logFunc := false }
        "graphql" "B" (DoOutcome.resp 200 "200 OK" (Except.ok "E"))
        (fun _ _ => UnmarshalOut.ok 9 []) (7 : Nat)).dest = 9 :=
  ⟨(C5_dest_mutated_only_on_success { url := "http://host/", headers := [], logFunc := false }
      "graphql" "B" (fun _ _ => UnmarshalOut.ok 9 []) (7 : Nat)).2.2.1
      404 "404 Not Found" "E" (by decide),
   ((C5_dest_mutated_only_on_success { url := "http://host/", headers := [], logFunc := false }
      "graphql" "B" (fun _ _ => UnmarshalOut.ok 9 []) (7 : Nat)).2.2.2.1
      "200 OK" "E" 9 rfl).2⟩

/-- C3 counterexample: a call that does obtain a response with HTTP status
200 but whose body read fails never invokes the configured log sink, so the
sink firing is not equivalent to reaching a 200-status response. -/
theorem C3_log_iff_200_cex :
    ({ url := "http://host/", headers := [], logFunc := true } : GraphQL).logFunc = true
    ∧ (GraphQL.RawRequest { url := "http://host/", headers := [], logFunc := true }
        "graphql" "B" (DoOutcome.resp 200 "200 OK" (Except.error "connection reset"))
        (fun _ d => UnmarshalOut.ok d []) ()).logs = [] :=
  ⟨rfl, rfl⟩

/-- C3 (amended): the configured log sink is invoked exactly once, with the
single string combining the captured request bytes and the raw response
bytes, if and only if the transport call succeeds, the body read succeeds
and the status is 200; it is never invoked on the transport, read or status
error paths, and it is invoked on the 200 path whatever the decode step
then does (decode errors and application-level GraphQL errors included). -/
theorem C3_log_only_on_200_read_ok {D : Type} (g : GraphQL)
    (endpoint r : String) (u : String → D → UnmarshalOut D) (d : D) :
    (∀ msg, (g.RawRequest endpoint r (DoOutcome.doError msg) u d).logs = [])
    ∧ (∀ code status msg,
        (g.RawRequest endpoint r (DoOutcome.resp code status (Except.error msg)) u d).logs = [])
    ∧ (∀ code status content, code ≠ 200 →
        (g.RawRequest endpoint r (DoOutcome.resp code status (Except.ok content)) u d).logs = [])
    ∧ (∀ status content,
        (g.RawRequest endpoint r (DoOutcome.resp 200 status (Except.ok content)) u d).logs
          = if g.logFunc then ["request:[" ++ r ++ "] data:[" ++ content ++ "]"] else []) := by
  refine ⟨fun msg => rfl, fun code status msg => rfl, ?_, ?_⟩
  · intro code status content h
    unfold GraphQL.RawRequest
    simp [h]
  · intro status content
    unfold GraphQL.RawRequest
    simp only [ne_eq, not_true_eq_false, if_false, reduceIte]
    cases u content d with
    | fail e d₂ => rfl
    | ok d₂ errs => cases errs <;> rfl

/-- Witness for C3 (amended): with the sink configured, a 404 produces no
log entry and a 200 produces exactly the combined request/response string,
even though that call ends in an application-level error. -/
theorem C3_log_only_on_200_read_ok_witness :
    (GraphQL.RawRequest { url := "http://host/", headers := [], logFunc := true }
        "graphql" "B" (DoOutcome.resp 404 "404 Not Found" (Except.ok "E"))
        (fun _ d => UnmarshalOut.ok d [⟨"boom"⟩]) ()).logs = []
    ∧ (GraphQL.RawRequest { url := "http://host/", headers := [], logFunc := true }
        "graphql" "B" (DoOutcome.resp 200 "200 OK" (Except.ok "E"))
        (fun _ d => UnmarshalOut.ok d [⟨"boom"⟩]) ()).logs
      = ["request:[" ++ "B" ++ "] data:[" ++ "E" ++ "]"] :=
  ⟨(C3_log_only_on_200_read_ok { url := "http://host/", headers := [], logFunc := true }
      "graphql" "B" (fun _ d => UnmarshalOut.ok d [⟨"boom"⟩]) ()).2.2.1
      404 "404 Not Found" "E" (by decide),
   (C3_log_only_on_200_read_ok { url := "http://host/", headers := [], logFunc := true }
      "graphql" "B" (fun _ d => UnmarshalOut.ok d [⟨"boom"⟩]) ()).2.2.2 "200 OK" "E"⟩

/-- C2: with at least one mutator, `Execute` builds the variables map by
folding the mutators over the empty map in order, a later `WithVariable`
for a key overwrites an earlier one, and the serialized envelope carries
exactly the resulting pairs (the rendered object is a permutation — the
key-sorted one — of the built map); with zero mutators the `variables`
field serializes as JSON `null`. -/
theorem C2_variables_envelope {D : Type} (g : GraphQL) (qs : String)
    (world : DoOutcome) (u : String → D → UnmarshalOut D) (d : D)
    (muts : List (VarMap → VarMap)) :
    (muts ≠ [] →
      (g.Execute qs world u d muts).sent.body
        = marshalRequest qs (some (muts.foldl (fun m mutator => mutator m) [])) ++ "\n"
      ∧ (sortFields (muts.foldl (fun m mutator => mutator m) [])).Perm
          (muts.foldl (fun m mutator => mutator m) []))
    ∧ (∀ (m : VarMap) (k : String) (v₁ v₂ : Json),
        List.lookup k (WithVariable k v₂ (WithVariable k v₁ m)) = some v₂)
    ∧ (muts = [] →
      (g.Execute qs world u d muts).sent.body = marshalRequest qs none ++ "\n")
    ∧ (variablesJson none).render = "null" := by
  refine ⟨?_, ?_, ?_, rfl⟩
  · intro h
    have hl : muts.length > 0 := List.length_pos.mpr h
    constructor
    · unfold GraphQL.Execute GraphQL.query
      rw [if_pos hl, RawRequest_sent]
    · exact List.perm_insertionSort _ _
  · intro m k v₁ v₂
    exact lookup_mapSet_self _ _ _
  · intro h
    subst h
    unfold GraphQL.Execute GraphQL.query
    rw [RawRequest_sent]
    rfl

/-- Witness for C2: one mutator produces the envelope of the one-entry map,
a second mutator on the same key wins, and zero mutators produce the
`null`-variables envelope. -/
theorem C2_variables_envelope_witness :
    (GraphQL.Execute { url := "http://host/", headers := [], logFunc := false }
        "q" (DoOutcome.doError "down") (fun _ d => UnmarshalOut.ok d []) ()
        [WithVariable "key" (Json.str "v")]).sent.body
      = marshalRequest "q" (some [("key", Json.str "v")]) ++ "\n"
    ∧ List.lookup "key"
        (WithVariable "key" (Json.num 2) (WithVariable "key" (Json.num 1) []))
      = some (Json.num 2)
    ∧ (GraphQL.Execute { url := "http://host/", headers := [], logFunc := false }
        "q" (DoOutcome.doError "down") (fun _ d => UnmarshalOut.ok d []) ()
        []).sent.body = marshalRequest "q" none ++ "\n" :=
  ⟨((C2_variables_envelope { url := "http://host/", headers := [], logFunc := false }
      "q" (DoOutcome.doError "down") (fun _ d => UnmarshalOut.ok d []) ()
      [WithVariable "key" (Json.str "v")]).1 (List.cons_ne_nil _ _)).1,
   (C2_variables_envelope { url := "http://host/", headers := [], logFunc := false }
      "q" (DoOutcome.doError "down") (fun _ d => UnmarshalOut.ok d []) ()
      [WithVariable "key" (Json.str "v")]).2.1 [] "key" (Json.num 1) (Json.num 2),
   (C2_variables_envelope { url := "http://host/", headers := [], logFunc := false }
      "q" (DoOutcome.doError "down") (fun _ d => UnmarshalOut.ok d []) ()
      []).2.2.1 rfl⟩

/-- C9: `Execute` is definitionally the same call as `ExecuteOnEndpoint`
with endpoint name `graphql`; the two differ only in the endpoint name that
is appended to the base URL of the outbound request. -/
theorem C9_execute_is_execute_on_graphql {D : Type} (g : GraphQL)
    (qs endpoint : String) (world : DoOutcome)
    (u : String → D → UnmarshalOut D) (d : D) (muts : List (VarMap → VarMap)) :
    g.Execute qs world u d muts = g.ExecuteOnEndpoint "graphql" qs world u d muts
    ∧ (g.ExecuteOnEndpoint endpoint qs world u d muts).sent.url = g.url ++ endpoint
    ∧ (g.Execute qs world u d muts).sent.url = g.url ++ "graphql" := by
  refine ⟨rfl, ?_, ?_⟩
  · unfold GraphQL.ExecuteOnEndpoint GraphQL.query
    rw [RawRequest_sent]
  · unfold GraphQL.Execute GraphQL.query
    rw [RawRequest_sent]

/-- C10: the body sent by `Execute` (and so by `ExecuteOnEndpoint`, which
is the same call) is the marshalled envelope followed by exactly one
newline: the streaming encoder appends one `\n` and the envelope itself
ends in a closing brace, not a newline. -/
theorem C10_body_single_trailing_newline {D : Type} (g : GraphQL) (qs : String)
    (world : DoOutcome) (u : String → D → UnmarshalOut D) (d : D)
    (muts : List (VarMap → VarMap)) :
    ∃ s, (g.Execute qs world u d muts).sent.body = s ++ "\n"
      ∧ s = marshalRequest qs (if muts.length > 0 then
            some (muts.foldl (fun m mutator => mutator m) []) else none)
      ∧ s.data.getLast? = some (Char.ofNat 125)
      ∧ ((g.Execute qs world u d muts).sent.body).data.getLast? = some '\n' := by
  refine ⟨marshalRequest qs (if muts.length > 0 then
    some (muts.foldl (fun m mutator => mutator m) []) else none), ?_, rfl, ?_, ?_⟩
  · unfold GraphQL.Execute GraphQL.query
    rw [RawRequest_sent]
  · unfold marshalRequest
    rw [String.data_append]
    exact List.getLast?_concat _
  · unfold GraphQL.Execute GraphQL.query
    rw [RawRequest_sent]
    show ((marshalRequest _ _ ++ "\n").data).getLast? = some '\n'
    rw [String.data_append]
    exact List.getLast?_concat _

/-- A header written by `WithHeader` sits last in the configured map, so it
wins the fold that overlays custom headers over the fixed ones. -/
theorem lookup_applyHeaders_last (g : GraphQL) (key value : String) :
    List.lookup key (applyHeaders { g with headers := mapSet g.headers key value })
      = some value := by
  unfold applyHeaders
  show List.lookup key ((mapSet g.headers key value).foldl (fun h p => mapSet h p.1 p.2) _)
    = some value
  rw [show mapSet g.headers key value
      = List.filter (fun p => p.1 ≠ key) g.headers ++ [(key, value)] from rfl,
    List.foldl_append, List.foldl_cons, List.foldl_nil]
  exact lookup_mapSet_self _ _ _

/-- C6: the stored base URL is the input with all trailing slashes trimmed
plus exactly one slash (so it ends in a slash that the trimmed prefix does
not end in), appending extra trailing slashes to the input yields the same
stored URL, and two clients built from the two spellings target the same
URL on every request. -/
theorem C6_url_normalization {D : Type} (url endpoint r : String) (n : Nat)
    (world : DoOutcome) (u : String → D → UnmarshalOut D) (d : D) :
    (New url []).url = trimRightSlash url ++ "/"
    ∧ (trimRightSlash url).data.getLast? ≠ some '/'
    ∧ (New (url ++ String.mk (List.replicate n '/')) []).url = (New url []).url
    ∧ ((New (url ++ String.mk (List.replicate n '/')) []).RawRequest
          endpoint r world u d).sent.url
        = ((New url []).RawRequest endpoint r world u d).sent.url := by
  refine ⟨rfl, getLast?_trimRightSlash url, ?_, ?_⟩
  · show trimRightSlash _ ++ "/" = trimRightSlash url ++ "/"
    rw [trimRightSlash_append_slashes]
  · rw [RawRequest_sent, RawRequest_sent]
    show (New _ []).url ++ endpoint = (New url []).url ++ endpoint
    rw [show (New (url ++ String.mk (List.replicate n '/')) []).url = (New url []).url by
      show trimRightSlash _ ++ "/" = trimRightSlash url ++ "/"
      rw [trimRightSlash_append_slashes]]

/-- C7: a pair configured through `WithHeader` with a non-empty key lands
verbatim in the client's header map and on the outbound request of every
call; with an empty key `WithHeader` leaves the client unchanged, so no
empty-named header is ever added. -/
theorem C7_with_header {D : Type} (g : GraphQL) (key value endpoint r : String)
    (world : DoOutcome) (u : String → D → UnmarshalOut D) (d : D) :
    (key ≠ "" →
      List.lookup key (WithHeader key value g).headers = some value
      ∧ List.lookup key
          (((WithHeader key value g).RawRequest endpoint r world u d).sent.headers)
        = some value)
    ∧ WithHeader "" value g = g := by
  constructor
  · intro h
    constructor
    · show List.lookup key (if key ≠ "" then _ else g).headers = some value
      rw [if_pos h]
      exact lookup_mapSet_self _ _ _
    · rw [RawRequest_sent]
      show List.lookup key (applyHeaders (if key ≠ "" then _ else g)) = some value
      rw [if_pos h]
      exact lookup_applyHeaders_last _ _ _
  · show (if ("" : String) ≠ "" then _ else g) = g
    rw [if_neg (fun hne => hne rfl)]

/-- Witness for C7: the pair `X: Y` appears on a request of the configured
client. -/
theorem C7_with_header_witness :
    List.lookup "X"
      (((WithHeader "X" "Y" { url := "http://host/", headers := [], logFunc := false }).RawRequest
          "graphql" "B" (DoOutcome.doError "down")
          (fun _ (d : Unit) => UnmarshalOut.ok d []) ()).sent.headers)
      = some "Y" :=
  ((C7_with_header { url := "http://host/", headers := [], logFunc := false }
      "X" "Y" "graphql" "B" (DoOutcome.doError "down")
      (fun _ d => UnmarshalOut.ok d []) ()).1 (by decide)).2

/-- C8: on every outbound request the fixed headers are present with their
fixed values whenever no custom header of that name is configured, and a
custom header of the same name — here shown for each fixed name, applied
through `WithHeader` — replaces the fixed value. -/
theorem C8_fixed_headers_then_custom {D : Type} (g : GraphQL)
    (endpoint r value : String) (world : DoOutcome)
    (u : String → D → UnmarshalOut D) (d : D) :
    ("Cache-Control" ∉ g.headers.map Prod.fst →
      List.lookup "Cache-Control" ((g.RawRequest endpoint r world u d).sent.headers)
        = some "no-cache")
    ∧ ("Content-Type" ∉ g.headers.map Prod.fst →
      List.lookup "Content-Type" ((g.RawRequest endpoint r world u d).sent.headers)
        = some "application/json")
    ∧ ("Accept" ∉ g.headers.map Prod.fst →
      List.lookup "Accept" ((g.RawRequest endpoint r world u d).sent.headers)
        = some "application/json")
    ∧ (∀ name, name ≠ "" →
      List.lookup name
        (((WithHeader name value g).RawRequest endpoint r world u d).sent.headers)
      = some value) := by
  refine ⟨?_, ?_, ?_, ?_⟩
  · intro h
    rw [RawRequest_sent]
    show List.lookup _ (applyHeaders g) = _
    unfold applyHeaders
    rw [lookup_foldl_mapSet_not_mem _ _ _ h]
    decide
  · intro h
    rw [RawRequest_sent]
    show List.lookup _ (applyHeaders g) = _
    unfold applyHeaders
    rw [lookup_foldl_mapSet_not_mem _ _ _ h]
    decide
  · intro h
    rw [RawRequest_sent]
    show List.lookup _ (applyHeaders g) = _
    unfold applyHeaders
    rw [lookup_foldl_mapSet_not_mem _ _ _ h]
    decide
  · intro name h
    rw [RawRequest_sent]
    show List.lookup name (applyHeaders (if name ≠ "" then _ else g)) = some value
    rw [if_pos h]
    exact lookup_applyHeaders_last _ _ _

/-- Witness for C8: with no custom headers the three fixed headers are on
the request, and a custom `Content-Type` replaces the fixed one. -/
theorem C8_fixed_headers_then_custom_witness :
    List.lookup "Content-Type"
      ((GraphQL.RawRequest { url := "http://host/", headers := [], logFunc := false }
          "graphql" "B" (DoOutcome.doError "down")
          (fun _ (d : Unit) => UnmarshalOut.ok d []) ()).sent.headers)
      = some "application/json"
    ∧ List.lookup "Content-Type"
      (((WithHeader "Content-Type" "text/plain"
            { url := "http://host/", headers := [], logFunc := false }).RawRequest
          "graphql" "B" (DoOutcome.doError "down")
          (fun _ (d : Unit) => UnmarshalOut.ok d []) ()).sent.headers)
      = some "text/plain" :=
  ⟨(C8_fixed_headers_then_custom { url := "http://host/", headers := [], logFunc := false }
      "graphql" "B" "text/plain" (DoOutcome.doError "down")
      (fun _ d => UnmarshalOut.ok d []) ()).2.1 (by decide),
   (C8_fixed_headers_then_custom { url := "http://host/", headers := [], logFunc := false }
      "graphql" "B" "text/plain" (DoOutcome.doError "down")
      (fun _ d => UnmarshalOut.ok d []) ()).2.2.2 "Content-Type" (by decide)⟩
